import Mathlib

/-!
Shallow embedding of the offline-caching / scheduled-notification service
worker of the azan-api repository (the two service-worker files
`src/unnamed/part_000`, version 2.1.0, and `src/dashboard/sw.js`,
version 2.0.0), together with theorems settling the specification claims.

HTTP responses are modelled as records of status / statusText / headers /
body; the Cache Storage API is modelled as an ordered list of named
partitions, each an ordered association list from URL to stored response;
`caches.match` searches every partition in order, `cache.put` replaces the
entry for the same URL inside one named partition.  A network fetch is an
environmental input: either a resolved response (whose `ok` flag is derived
from the status, as in the platform) or a rejection.  Wall-clock inputs
(`Date.now()`, `new Date().toISOString()`, today's local midnight) are
passed as explicit parameters.
-/

/-- An HTTP header map, modelled as an ordered association list.
`Headers.set` (as in the platform) replaces any entry with the same name. -/
def setHeader (hs : List (String × String)) (k v : String) : List (String × String) :=
  hs.filter (fun p => p.1 ≠ k) ++ [(k, v)]

/-- Look a header up by exact name. -/
def getHeader (hs : List (String × String)) (k : String) : Option String :=
  (hs.find? (fun p => p.1 == k)).map Prod.snd

/-- A snapshot of an HTTP response: status, statusText, headers, body. -/
structure HttpResponse where
  status : Nat
  statusText : String
  headers : List (String × String)
  body : String
  deriving DecidableEq, Repr

/-- `Response.ok` of the platform: status in the 200–299 range. -/
def respOk (r : HttpResponse) : Bool :=
  200 ≤ r.status && r.status ≤ 299

/-- The outcome of `fetch(request)`: a resolved response, or a rejection
(network failure). -/
inductive FetchResult where
  | success (r : HttpResponse)
  | failure
  deriving DecidableEq, Repr

/-- One cache partition: an ordered association list URL → stored response. -/
abbrev Partition := List (String × HttpResponse)

/-- The Cache Storage: an ordered list of named partitions. -/
abbrev CacheState := List (String × Partition)

/-- Entry replacement inside one partition (`cache.put` semantics: the entry
for the same URL is superseded, others are kept, a new URL is appended). -/
def partitionPut (p : Partition) (url : String) (r : HttpResponse) : Partition :=
  p.filter (fun e => e.1 ≠ url) ++ [(url, r)]

/-- `caches.open(name)` followed by `cache.put(url, r)`: update the named
partition, creating it (at the end) when absent. -/
def cachePut (st : CacheState) (name url : String) (r : HttpResponse) : CacheState :=
  match st with
  | [] => [(name, partitionPut [] url r)]
  | (n, p) :: rest =>
      if n = name then (n, partitionPut p url r) :: rest
      else (n, p) :: cachePut rest name url r

/-- Look a URL up inside one named partition. -/
def cacheLookup (st : CacheState) (name url : String) : Option HttpResponse :=
  match st.find? (fun e => e.1 == name) with
  | some (_, p) => (p.find? (fun e => e.1 == url)).map Prod.snd
  | none => none

/-- `caches.match(request)`: search every partition in storage order for the
request URL. -/
def cachesMatch (st : CacheState) (url : String) : Option HttpResponse :=
  match st with
  | [] => none
  | (_, p) :: rest =>
      match (p.find? (fun e => e.1 == url)).map Prod.snd with
      | some r => some r
      | none => cachesMatch rest url

/-- An intercepted request: method, URL path component, and full URL. -/
structure Request where
  method : String
  pathname : String
  href : String
  deriving DecidableEq, Repr

/-- Decidable check that `sub` occurs contiguously inside `l`. -/
def listInfixOf (sub l : List Char) : Bool :=
  sub.isPrefixOf l ||
    match l with
    | [] => false
    | _ :: t => listInfixOf sub t

/-- JS `String.prototype.includes`: substring containment. -/
def strIncludes (s sub : String) : Bool :=
  listInfixOf sub.data s.data

/-- JS `String.prototype.startsWith`: prefix containment. -/
def strStartsWith (s pre : String) : Bool :=
  pre.data.isPrefixOf s.data

namespace SW
/-! Version 2.1.0 service worker (`src/unnamed/part_000`). -/

def CACHE_NAME : String := "prayer-times-kerala-v2.1.0"
def API_CACHE : String := "prayer-times-api-v2.1.0"
def OFFLINE_CACHE : String := "prayer-times-offline-v2.1.0"

def CORE_ASSETS : List String :=
  [ "/index.html",
    "/favicon/android-chrome-192x192.png",
    "/favicon/android-chrome-512x512.png",
    "/favicon/apple-touch-icon.png",
    "/favicon/favicon-32x32.png",
    "/favicon/favicon-16x16.png",
    "/favicon/favicon.ico",
    "/favicon/site.webmanifest",
    "https://fonts.googleapis.com/css2?family=Inter:wght@300;400;500;600;700;800&display=swap",
    "https://cdnjs.cloudflare.com/ajax/libs/font-awesome/6.4.0/css/all.min.css" ]

/-- `createOfflineResponse()`: the synthesized 503 offline fallback. -/
def createOfflineResponse : HttpResponse :=
  { status := 503
    statusText := "Service Unavailable"
    headers := [("Content-Type", "application/json"), ("sw-offline", "true")]
    body := "\x7b\"error\":\"Offline\",\"message\":\"You are currently offline. Please check your internet connection.\",\"cached\":true\x7d" }

/-- `handleApiRequest`: network-first.  On a resolved `ok` response, store a
copy stamped `sw-cached-at` (the current clock's ISO rendering `nowIso`) in
the API partition and return the live response; otherwise fall back to the
stored copy tagged `sw-from-cache=true`; otherwise the offline response.
Returns the response together with the cache storage after the call. -/
def handleApiRequest (fetchRes : FetchResult) (nowIso : String) (st : CacheState)
    (url : String) : HttpResponse × CacheState :=
  match fetchRes with
  | .success r =>
      if respOk r then
        let modified : HttpResponse :=
          { r with headers := setHeader r.headers "sw-cached-at" nowIso }
        (r, cachePut st API_CACHE url modified)
      else
        match cachesMatch st url with
        | some c =>
            ({ c with headers := setHeader c.headers "sw-from-cache" "true" }, st)
        | none => (createOfflineResponse, st)
  | .failure =>
      match cachesMatch st url with
      | some c =>
          ({ c with headers := setHeader c.headers "sw-from-cache" "true" }, st)
      | none => (createOfflineResponse, st)

/-- `handleCoreAssetRequest`: cache-first; a miss fetches and, on an `ok`
response, stores a copy in the core-assets partition. -/
def handleCoreAssetRequest (fetchRes : FetchResult) (st : CacheState)
    (url : String) : HttpResponse × CacheState :=
  match cachesMatch st url with
  | some c => (c, st)
  | none =>
      match fetchRes with
      | .success r =>
          if respOk r then (r, cachePut st CACHE_NAME url r)
          else (createOfflineResponse, st)
      | .failure => (createOfflineResponse, st)

/-- `handleNetworkRequest`: network-first with opportunistic caching in the
offline-fallback partition; a failure falls back to any stored copy. -/
def handleNetworkRequest (fetchRes : FetchResult) (st : CacheState)
    (url : String) : HttpResponse × CacheState :=
  match fetchRes with
  | .success r =>
      if respOk r then (r, cachePut st OFFLINE_CACHE url r)
      else
        match cachesMatch st url with
        | some c => (c, st)
        | none => (createOfflineResponse, st)
  | .failure =>
      match cachesMatch st url with
      | some c => (c, st)
      | none => (createOfflineResponse, st)

/-- The three traffic classes of the fetch listener. -/
inductive RequestClass where
  | api | coreAsset | default
  deriving DecidableEq, Repr

/-- Classification of a GET request by the fetch listener's conditionals. -/
def classifyRequest (req : Request) : RequestClass :=
  if strStartsWith req.pathname "/v1/" then .api
  else if CORE_ASSETS.any (fun asset =>
      strIncludes req.pathname asset || strIncludes req.href asset) then .coreAsset
  else .default

/-- The fetch listener: non-GET requests are not intercepted (`none`);
GET requests are dispatched to the per-class handler. -/
def routeFetch (req : Request) (fetchRes : FetchResult) (nowIso : String)
    (st : CacheState) : Option (HttpResponse × CacheState) :=
  if req.method ≠ "GET" then none
  else
    match classifyRequest req with
    | .api => some (handleApiRequest fetchRes nowIso st req.href)
    | .coreAsset => some (handleCoreAssetRequest fetchRes st req.href)
    | .default => some (handleNetworkRequest fetchRes st req.href)

/-- The activate listener's cache cleanup: every cache whose name is not one
of the three current-generation names is deleted; the survivors are exactly
the names matching the current generation. -/
def activateCleanup (cacheNames : List String) : List String :=
  cacheNames.filter (fun n => n == CACHE_NAME || n == API_CACHE || n == OFFLINE_CACHE)

/-! ### Notification scheduler (IndexedDB-backed) -/

/-- The six fixed prayer names. -/
inductive Prayer where
  | fajr | sunrise | dhuhr | asr | maghrib | isha
  deriving DecidableEq, Repr

/-- The per-prayer boolean flags of the settings record. -/
structure PrayerFlags where
  fajr : Bool
  sunrise : Bool
  dhuhr : Bool
  asr : Bool
  maghrib : Bool
  isha : Bool
  deriving DecidableEq, Repr

/-- `settings.prayers[prayer]`. -/
def flagOf (f : PrayerFlags) : Prayer → Bool
  | .fajr => f.fajr
  | .sunrise => f.sunrise
  | .dhuhr => f.dhuhr
  | .asr => f.asr
  | .maghrib => f.maghrib
  | .isha => f.isha

/-- The settings record stored under the fixed key "notifications". -/
structure Settings where
  enabled : Bool
  prayers : PrayerFlags
  deriving DecidableEq, Repr

/-- The default settings object of `getNotificationSettings`. -/
def defaultSettings : Settings :=
  { enabled := false
    prayers :=
      { fajr := true
        sunrise := false
        dhuhr := true
        asr := true
        maghrib := true
        isha := true } }

/-- `getNotificationSettings()`: the stored record, or the defaults when the
store holds none (`settings || {...}`). -/
def getNotificationSettings (stored : Option Settings) : Settings :=
  stored.getD defaultSettings

/-- `getNotificationSettings` performs only a `dbGet`; its effect on the
settings store is nil — the record read is paired with the store unchanged. -/
def getNotificationSettingsStore (stored : Option Settings) :
    Settings × Option Settings :=
  (getNotificationSettings stored, stored)

/-- The prayer-times snapshot stored under the fixed key "today": provider
time strings under the provider keys, plus a location label. -/
structure PrayerTimesRec where
  subh : String
  sunrise : String
  duhr : String
  asar : String
  maghrib : String
  isha : String
  location : Option String
  deriving DecidableEq, Repr

/-- `prayerTimes[apiKey]` through the `timeMapping`
(fajr→subh, sunrise→sunrise, dhuhr→duhr, asr→asar, maghrib→maghrib,
isha→isha). -/
def timeOf (pt : PrayerTimesRec) : Prayer → String
  | .fajr => pt.subh
  | .sunrise => pt.sunrise
  | .dhuhr => pt.duhr
  | .asr => pt.asar
  | .maghrib => pt.maghrib
  | .isha => pt.isha

/-! #### `parseTimeToDate`: the regex `/(\d{1,2}):(\d{2})\s*(AM|PM)/i`
searched left to right with the hour group greedy (two digits tried before
one), followed by the 12-to-24-hour conversion and construction of today's
local instant.  Instants are epoch milliseconds; today's local midnight is
the explicit parameter `base`. -/

/-- Numeric value of a decimal digit character. -/
def digitVal (c : Char) : Nat := c.toNat - '0'.toNat

/-- The characters matched by the regex class `\s` (ASCII portion). -/
def isSpaceChar (c : Char) : Bool :=
  c = ' ' || c = '\t' || c = '\n' || c = '\r' || c = '\x0b' || c = '\x0c'

/-- `\s*(AM|PM)` case-insensitively, at the head of the remaining input:
maximal whitespace, then the period letters.  Returns `some isPM`. -/
def readPeriod (cs : List Char) : Option Bool :=
  match cs.dropWhile isSpaceChar with
  | a :: m :: _ =>
      if (a = 'A' || a = 'a') && (m = 'M' || m = 'm') then some false
      else if (a = 'P' || a = 'p') && (m = 'M' || m = 'm') then some true
      else none
  | _ => none

/-- The two-digit-hour alternative of the regex at the current position:
`\d\d:\d\d\s*(AM|PM)`.  Returns `(hours, minutes, isPM)`. -/
def matchTwo (cs : List Char) : Option (Nat × Nat × Bool) :=
  match cs with
  | c1 :: c2 :: c3 :: m1 :: m2 :: rest =>
      if c1.isDigit && c2.isDigit && (c3 == ':') && m1.isDigit && m2.isDigit then
        (readPeriod rest).map (fun pm =>
          (10 * digitVal c1 + digitVal c2, 10 * digitVal m1 + digitVal m2, pm))
      else none
  | _ => none

/-- The one-digit-hour alternative at the current position:
`\d:\d\d\s*(AM|PM)`. -/
def matchOne (cs : List Char) : Option (Nat × Nat × Bool) :=
  match cs with
  | c1 :: c2 :: m1 :: m2 :: rest =>
      if c1.isDigit && (c2 == ':') && m1.isDigit && m2.isDigit then
        (readPeriod rest).map (fun pm =>
          (digitVal c1, 10 * digitVal m1 + digitVal m2, pm))
      else none
  | _ => none

/-- The regex attempted at one position: greedy hour group, so the two-digit
alternative is tried first and the one-digit alternative on backtracking. -/
def matchAt (cs : List Char) : Option (Nat × Nat × Bool) :=
  (matchTwo cs).orElse (fun _ => matchOne cs)

/-- `String.prototype.match`: the leftmost position where the pattern
matches wins. -/
def findTimeMatch : List Char → Option (Nat × Nat × Bool)
  | [] => none
  | c :: rest => (matchAt (c :: rest)).orElse (fun _ => findTimeMatch rest)

/-- The 12-to-24-hour conversion of `parseTimeToDate`:
`if (period === "PM" && hours !== 12) hours += 12;
 else if (period === "AM" && hours === 12) hours = 0;`. -/
def to24Hour (pm : Bool) (hours : Nat) : Nat :=
  if pm && hours ≠ 12 then hours + 12
  else if !pm && hours = 12 then 0
  else hours

/-- `parseTimeToDate(timeStr)`: `null` for a falsy (empty) string or a
non-matching one; otherwise today's local instant at the converted time,
as epoch milliseconds over today's local midnight `base`. -/
def parseTimeToDate (timeStr : String) (base : Int) : Option Int :=
  if timeStr = "" then none
  else
    match findTimeMatch timeStr.data with
    | none => none
    | some (h, m, pm) =>
        some (base + ((to24Hour pm h * 60 + m : Nat) : Int) * 60000)

/-- A scheduled-notification entry (`id = prayer`, fire time in epoch
milliseconds, the display time string, and the fired flag). -/
structure Entry where
  prayer : Prayer
  time : Int
  timeStr : String
  notified : Bool
  deriving DecidableEq, Repr

/-- The scheduler-relevant slice of the IndexedDB: the settings record, the
prayer-times snapshot, and the keyed scheduled-notification collection. -/
structure SchedState where
  settings : Option Settings
  prayerTimes : Option PrayerTimesRec
  sched : Prayer → Option Entry

/-- `scheduleNotifications()`: early return when notifications are disabled
or no snapshot exists; otherwise clear the collection and re-create one
pending entry per enabled prayer whose non-empty time string parses to a
strictly future instant. -/
def scheduleNotifications (st : SchedState) (now base : Int) : SchedState :=
  match st.prayerTimes with
  | none => st
  | some pt =>
      if (getNotificationSettings st.settings).enabled then
        { st with sched := fun p =>
            if flagOf (getNotificationSettings st.settings).prayers p && timeOf pt p ≠ "" then
              match parseTimeToDate (timeOf pt p) base with
              | some t =>
                  if now < t then
                    some { prayer := p, time := t, timeStr := timeOf pt p, notified := false }
                  else none
              | none => none
            else none }
      else st

/-- `dbGetAll("scheduledNotifications")` returns entries in key order
(string order of the prayer-name ids). -/
def scanOrder : List Prayer :=
  [.asr, .dhuhr, .fajr, .isha, .maghrib, .sunrise]

/-- Whether one entry fires at clock `now`: pending and within the
±60-second window (`timeDiff <= 60000 && timeDiff >= -60000`). -/
def firesAt (st : SchedState) (now : Int) (p : Prayer) : Bool :=
  match st.sched p with
  | some e => !e.notified && decide (e.time - now ≤ 60000) && decide (-60000 ≤ e.time - now)
  | none => false

/-- `checkAndShowNotifications()`: early return when disabled; otherwise
every pending entry within the window is shown (collected in scan order)
and persisted with `notified = true`.  Returns the state after the scan and
the list of prayers a notification was emitted for. -/
def checkAndShowNotifications (st : SchedState) (now : Int) :
    SchedState × List Prayer :=
  if (getNotificationSettings st.settings).enabled then
    ({ st with sched := fun p =>
        match st.sched p with
        | some e =>
            if !e.notified && decide (e.time - now ≤ 60000) && decide (-60000 ≤ e.time - now)
            then some { e with notified := true }
            else some e
        | none => none },
     scanOrder.filter (firesAt st now))
  else (st, [])

/-- The `UPDATE_NOTIFICATION_SETTINGS` message: `dbPut` the supplied payload
wholesale under the fixed key, then run `scheduleNotifications`. -/
def updateNotificationSettings (payload : Settings) (st : SchedState)
    (now base : Int) : SchedState :=
  scheduleNotifications { st with settings := some payload } now base

end SW

namespace SWOld
/-! Version 2.0.0 service worker (`src/dashboard/sw.js`): request routing
only (it has no IndexedDB-backed scheduler). -/

def CACHE_NAME : String := "prayer-times-kerala-v2.0.0"
def API_CACHE : String := "prayer-times-api-v2.0.0"
def OFFLINE_CACHE : String := "prayer-times-offline-v2.0.0"

def CORE_ASSETS : List String :=
  [ "/index.html",
    "/favicon/android-chrome-192x192.png",
    "/favicon/android-chrome-512x512.png",
    "/favicon/apple-touch-icon.png",
    "/favicon/favicon-32x32.png",
    "/favicon/favicon-16x16.png",
    "/favicon/favicon.ico",
    "/favicon/site.webmanifest",
    "https://fonts.googleapis.com/css2?family=Inter:wght@300;400;500;600;700;800&display=swap",
    "https://cdnjs.cloudflare.com/ajax/libs/font-awesome/6.4.0/css/all.min.css" ]

/-- `createOfflineResponse()` of v2.0.0. -/
def createOfflineResponse : HttpResponse :=
  { status := 503
    statusText := "Service Unavailable"
    headers := [("Content-Type", "application/json"), ("sw-offline", "true")]
    body := "\x7b\"error\":\"Offline\",\"message\":\"You are currently offline. Please check your internet connection.\",\"cached\":true\x7d" }

/-- `handleApiRequest` of v2.0.0 (network-first; stores in the v2.0.0 API
partition). -/
def handleApiRequest (fetchRes : FetchResult) (nowIso : String) (st : CacheState)
    (url : String) : HttpResponse × CacheState :=
  match fetchRes with
  | .success r =>
      if respOk r then
        let modified : HttpResponse :=
          { r with headers := setHeader r.headers "sw-cached-at" nowIso }
        (r, cachePut st API_CACHE url modified)
      else
        match cachesMatch st url with
        | some c =>
            ({ c with headers := setHeader c.headers "sw-from-cache" "true" }, st)
        | none => (createOfflineResponse, st)
  | .failure =>
      match cachesMatch st url with
      | some c =>
          ({ c with headers := setHeader c.headers "sw-from-cache" "true" }, st)
      | none => (createOfflineResponse, st)

/-- `handleCoreAssetRequest` of v2.0.0. -/
def handleCoreAssetRequest (fetchRes : FetchResult) (st : CacheState)
    (url : String) : HttpResponse × CacheState :=
  match cachesMatch st url with
  | some c => (c, st)
  | none =>
      match fetchRes with
      | .success r =>
          if respOk r then (r, cachePut st CACHE_NAME url r)
          else (createOfflineResponse, st)
      | .failure => (createOfflineResponse, st)

/-- `handleNetworkRequest` of v2.0.0. -/
def handleNetworkRequest (fetchRes : FetchResult) (st : CacheState)
    (url : String) : HttpResponse × CacheState :=
  match fetchRes with
  | .success r =>
      if respOk r then (r, cachePut st OFFLINE_CACHE url r)
      else
        match cachesMatch st url with
        | some c => (c, st)
        | none => (createOfflineResponse, st)
  | .failure =>
      match cachesMatch st url with
      | some c => (c, st)
      | none => (createOfflineResponse, st)

/-- Classification by the v2.0.0 fetch listener. -/
def classifyRequest (req : Request) : SW.RequestClass :=
  if strStartsWith req.pathname "/v1/" then .api
  else if CORE_ASSETS.any (fun asset =>
      strIncludes req.pathname asset || strIncludes req.href asset) then .coreAsset
  else .default

/-- The v2.0.0 fetch listener. -/
def routeFetch (req : Request) (fetchRes : FetchResult) (nowIso : String)
    (st : CacheState) : Option (HttpResponse × CacheState) :=
  if req.method ≠ "GET" then none
  else
    match classifyRequest req with
    | .api => some (handleApiRequest fetchRes nowIso st req.href)
    | .coreAsset => some (handleCoreAssetRequest fetchRes st req.href)
    | .default => some (handleNetworkRequest fetchRes st req.href)

end SWOld

/-! ### Specification-side definitions -/

/-- An `H:MM` time followed (after optional whitespace) by a
case-insensitive `AM`/`PM` period, anchored at the head of a character
list: a one-or-two-digit hour group, a colon, exactly two minute digits,
regex whitespace, and the period letters. -/
def TimeMatchAt (cs : List Char) : Prop :=
  ∃ (hs : List Char) (m1 m2 : Char) (ws : List Char) (p1 p2 : Char)
      (post : List Char),
    cs = hs ++ ':' :: m1 :: m2 :: (ws ++ p1 :: p2 :: post) ∧
    (hs.length = 1 ∨ hs.length = 2) ∧
    (∀ c ∈ hs, c.isDigit = true) ∧
    m1.isDigit = true ∧ m2.isDigit = true ∧
    (∀ c ∈ ws, SW.isSpaceChar c = true) ∧
    (p1 = 'A' ∨ p1 = 'a' ∨ p1 = 'P' ∨ p1 = 'p') ∧
    (p2 = 'M' ∨ p2 = 'm')

/-- Modelled from the spec: the string contains, somewhere, an `H:MM` time
followed by a case-insensitive `AM`/`PM` period. -/
def ContainsTimePattern (s : String) : Prop :=
  ∃ pre suf, s.data = pre ++ suf ∧ TimeMatchAt suf

/-- Modelled from the spec: the 12-to-24-hour rule in the claim's words —
PM adds 12 except for 12 PM; 12 AM maps to hour 0. -/
def specTo24Hour (pm : Bool) (hours : Nat) : Nat :=
  if pm then (if hours = 12 then 12 else hours + 12)
  else (if hours = 12 then 0 else hours)

/-- The renaming of cache-partition names from the v2.0.0 generation to the
v2.1.0 generation. -/
def renameCache (n : String) : String :=
  if n = SWOld.CACHE_NAME then SW.CACHE_NAME
  else if n = SWOld.API_CACHE then SW.API_CACHE
  else if n = SWOld.OFFLINE_CACHE then SW.OFFLINE_CACHE
  else n

/-- The same renaming applied to a whole cache storage (partition contents
and order are untouched). -/
def renameState (st : CacheState) : CacheState :=
  st.map (fun e => (renameCache e.1, e.2))

/-! ### Helper lemmas -/

theorem find?_keyed_append {β : Type} (l : List (String × β)) (k : String) (v : β)
    (h : ∀ p ∈ l, p.1 ≠ k) :
    (l ++ [(k, v)]).find? (fun p => p.1 == k) = some (k, v) := by
  induction l with
  | nil => simp
  | cons a t ih =>
      have ha : (a.1 == k) = false := by
        have := h a (List.mem_cons_self a t)
        simpa using this
      rw [List.cons_append, List.find?_cons_of_neg _ (by simp [ha])]
      exact ih (fun p hp => h p (List.mem_cons_of_mem a hp))

theorem getHeader_setHeader (hs : List (String × String)) (k v : String) :
    getHeader (setHeader hs k v) k = some v := by
  unfold getHeader setHeader
  rw [find?_keyed_append]
  · rfl
  · intro p hp
    rw [List.mem_filter] at hp
    simpa using hp.2

theorem find?_partitionPut (p : Partition) (url : String) (r : HttpResponse) :
    (partitionPut p url r).find? (fun e => e.1 == url) = some (url, r) := by
  unfold partitionPut
  apply find?_keyed_append
  intro e he
  rw [List.mem_filter] at he
  simpa using he.2

theorem cacheLookup_cons (n : String) (p : Partition) (l : CacheState)
    (name url : String) :
    cacheLookup ((n, p) :: l) name url =
      if n = name then (p.find? (fun e => e.1 == url)).map Prod.snd
      else cacheLookup l name url := by
  unfold cacheLookup
  by_cases h : n = name
  · rw [List.find?_cons_of_pos _ (by simp [h])]
    simp [h]
  · rw [List.find?_cons_of_neg _ (by simp [h])]
    simp [h]

theorem cacheLookup_cachePut (st : CacheState) (name url : String)
    (r : HttpResponse) :
    cacheLookup (cachePut st name url r) name url = some r := by
  induction st with
  | nil =>
      unfold cachePut
      rw [cacheLookup_cons]
      simp [find?_partitionPut]
  | cons e rest ih =>
      rcases e with ⟨n, pp⟩
      unfold cachePut
      by_cases h : n = name
      · subst h
        rw [if_pos rfl, cacheLookup_cons]
        simp [find?_partitionPut]
      · rw [if_neg h, cacheLookup_cons, if_neg h]
        exact ih

/-! ### Claim theorems -/

/-- C6: whenever neither a live fetch (a rejected fetch or a non-`ok`
response) nor a stored copy can satisfy a request, each of the three
per-class handlers returns the synthesized offline response, which carries
HTTP status 503, the fixed offline JSON body, the `sw-offline: true` marker
header and `Content-Type: application/json`. -/
theorem claim_C6_offline_response :
    ∀ (st : CacheState) (url nowIso : String) (fr : FetchResult),
      cachesMatch st url = none →
      (fr = .failure ∨ ∃ r, fr = .success r ∧ respOk r = false) →
      (SW.createOfflineResponse.status = 503 ∧
       SW.createOfflineResponse.body =
         "\x7b\"error\":\"Offline\",\"message\":\"You are currently offline. Please check your internet connection.\",\"cached\":true\x7d" ∧
       getHeader SW.createOfflineResponse.headers "sw-offline" = some "true" ∧
       getHeader SW.createOfflineResponse.headers "Content-Type" =
         some "application/json") ∧
      (SW.handleApiRequest fr nowIso st url).1 = SW.createOfflineResponse ∧
      (SW.handleCoreAssetRequest fr st url).1 = SW.createOfflineResponse ∧
      (SW.handleNetworkRequest fr st url).1 = SW.createOfflineResponse := by
  intro st url nowIso fr hmatch hfail
  refine ⟨⟨rfl, rfl, rfl, rfl⟩, ?_, ?_, ?_⟩
  · rcases hfail with rfl | ⟨r, rfl, hok⟩
    · simp [SW.handleApiRequest, hmatch]
    · simp [SW.handleApiRequest, hmatch, hok]
  · rcases hfail with rfl | ⟨r, rfl, hok⟩
    · simp [SW.handleCoreAssetRequest, hmatch]
    · simp [SW.handleCoreAssetRequest, hmatch, hok]
  · rcases hfail with rfl | ⟨r, rfl, hok⟩
    · simp [SW.handleNetworkRequest, hmatch]
    · simp [SW.handleNetworkRequest, hmatch, hok]

/-- Witness for C6 at a concrete input: empty cache storage, rejected fetch. -/
theorem claim_C6_witness :
    (SW.createOfflineResponse.status = 503 ∧
     SW.createOfflineResponse.body =
       "\x7b\"error\":\"Offline\",\"message\":\"You are currently offline. Please check your internet connection.\",\"cached\":true\x7d" ∧
     getHeader SW.createOfflineResponse.headers "sw-offline" = some "true" ∧
     getHeader SW.createOfflineResponse.headers "Content-Type" =
       some "application/json") ∧
    (SW.handleApiRequest .failure "" [] "https://api.azantimes.in/v1/timesheets/index.json").1 =
      SW.createOfflineResponse ∧
    (SW.handleCoreAssetRequest .failure [] "https://api.azantimes.in/v1/timesheets/index.json").1 =
      SW.createOfflineResponse ∧
    (SW.handleNetworkRequest .failure [] "https://api.azantimes.in/v1/timesheets/index.json").1 =
      SW.createOfflineResponse :=
  claim_C6_offline_response [] "https://api.azantimes.in/v1/timesheets/index.json" ""
    .failure rfl (Or.inl rfl)

/-- C5, counterexample to the claim as stated: starting from a cache set
holding no partitions at all, two runs of the activation cleanup do not
leave the three current-generation partitions in existence — the current
core partition does not exist afterwards (activation deletes, never
creates). -/
theorem claim_C5_counterexample :
    SW.CACHE_NAME ∉ SW.activateCleanup (SW.activateCleanup []) := by
  decide

/-- C5 (amended): the activation cleanup is idempotent and deletes no
partition named with a current-generation name; the partitions surviving a
run are exactly those members of the starting set named with one of the
three current-generation names. -/
theorem claim_C5_cleanup_idempotent :
    ∀ names : List String,
      SW.activateCleanup (SW.activateCleanup names) = SW.activateCleanup names ∧
      ∀ n : String,
        n ∈ SW.activateCleanup names ↔
          (n ∈ names ∧
           (n = SW.CACHE_NAME ∨ n = SW.API_CACHE ∨ n = SW.OFFLINE_CACHE)) := by
  intro names
  constructor
  · unfold SW.activateCleanup
    rw [List.filter_filter]
    congr 1
    funext n
    rw [Bool.and_self]
  · intro n
    unfold SW.activateCleanup
    rw [List.mem_filter]
    simp [or_assoc]

/-- C9: a scan is globally gated on the enabled flag — with the settings
record absent (defaults have `enabled = false`) or stored with
`enabled = false`, `checkAndShowNotifications` emits no notification and
leaves the whole store untouched. -/
theorem claim_C9_scan_enabled_gate :
    ∀ (st : SW.SchedState) (now : Int),
      (st.settings = none ∨ ∃ s, st.settings = some s ∧ s.enabled = false) →
      SW.checkAndShowNotifications st now = (st, []) := by
  intro st now h
  unfold SW.checkAndShowNotifications
  rcases h with h | ⟨s, hs, he⟩
  · simp [h, SW.getNotificationSettings, SW.defaultSettings]
  · simp [hs, SW.getNotificationSettings, he]

/-- Witness for C9 at a concrete input: absent settings record, and a
pending entry exactly at its fire time. -/
theorem claim_C9_witness :
    SW.checkAndShowNotifications
        ⟨none, none, fun _ => some ⟨.fajr, 0, "12:00 AM", false⟩⟩ 0 =
      (⟨none, none, fun _ => some ⟨.fajr, 0, "12:00 AM", false⟩⟩, []) :=
  claim_C9_scan_enabled_gate _ 0 (Or.inl rfl)

/-- C1: a GET request whose path starts with `/v1/` is dispatched to the API
handler, and that handler is network-first — a live `ok` response is
returned as-is while a copy stamped with a fresh `sw-cached-at` header is
stored in the API partition under the request URL; on a rejected fetch, the
stored copy (when one exists) is returned with `sw-from-cache: true` added
and its status preserved; with no stored copy either, the synthesized 503
offline response is returned. -/
theorem claim_C1_api_network_first :
    ∀ (req : Request) (fr : FetchResult) (nowIso : String) (st : CacheState),
      req.method = "GET" →
      strStartsWith req.pathname "/v1/" = true →
      SW.routeFetch req fr nowIso st =
        some (SW.handleApiRequest fr nowIso st req.href) ∧
      (∀ r : HttpResponse, fr = .success r → respOk r = true →
        SW.handleApiRequest fr nowIso st req.href =
          (r, cachePut st SW.API_CACHE req.href
                { r with headers := setHeader r.headers "sw-cached-at" nowIso }) ∧
        cacheLookup (SW.handleApiRequest fr nowIso st req.href).2
            SW.API_CACHE req.href =
          some { r with headers := setHeader r.headers "sw-cached-at" nowIso } ∧
        getHeader (setHeader r.headers "sw-cached-at" nowIso) "sw-cached-at" =
          some nowIso) ∧
      (∀ c : HttpResponse, fr = .failure → cachesMatch st req.href = some c →
        SW.handleApiRequest fr nowIso st req.href =
          ({ c with headers := setHeader c.headers "sw-from-cache" "true" }, st) ∧
        ({ c with headers := setHeader c.headers "sw-from-cache" "true" } : HttpResponse).status =
          c.status ∧
        getHeader (setHeader c.headers "sw-from-cache" "true") "sw-from-cache" =
          some "true") ∧
      (fr = .failure → cachesMatch st req.href = none →
        SW.handleApiRequest fr nowIso st req.href = (SW.createOfflineResponse, st)) := by
  intro req fr nowIso st hm hp
  refine ⟨?_, ?_, ?_, ?_⟩
  · unfold SW.routeFetch SW.classifyRequest
    simp [hm, hp]
  · rintro r rfl hok
    refine ⟨by simp [SW.handleApiRequest, hok], ?_, getHeader_setHeader _ _ _⟩
    simp [SW.handleApiRequest, hok, cacheLookup_cachePut]
  · rintro c rfl hc
    exact ⟨by simp [SW.handleApiRequest, hc], rfl, getHeader_setHeader _ _ _⟩
  · rintro rfl hc
    simp [SW.handleApiRequest, hc]

/-- Witness for C1 at a concrete input: a GET for the `/v1/` timesheets URL
with a live 200 response and an empty cache storage. -/
theorem claim_C1_witness :
    SW.handleApiRequest (.success ⟨200, "OK", [], "{}"⟩)
        "2025-01-01T00:00:00.000Z" []
        "https://api.azantimes.in/v1/timesheets/index.json" =
      (⟨200, "OK", [], "{}"⟩,
       cachePut [] SW.API_CACHE "https://api.azantimes.in/v1/timesheets/index.json"
         ⟨200, "OK", setHeader [] "sw-cached-at" "2025-01-01T00:00:00.000Z", "{}"⟩) :=
  ((claim_C1_api_network_first
      ⟨"GET", "/v1/timesheets/index.json",
       "https://api.azantimes.in/v1/timesheets/index.json"⟩
      (.success ⟨200, "OK", [], "{}"⟩) "2025-01-01T00:00:00.000Z" []
      rfl (by decide)).2.1 ⟨200, "OK", [], "{}"⟩ rfl rfl).1

theorem count_filter_of_pos {α : Type} [DecidableEq α] (f : α → Bool)
    (l : List α) (a : α) (h : f a = true) :
    (l.filter f).count a = l.count a := by
  induction l with
  | nil => rfl
  | cons b t ih =>
      by_cases hb : b = a
      · subst hb
        rw [List.filter_cons_of_pos (by simp [h]), List.count_cons_self,
          List.count_cons_self, ih]
      · cases hfb : f b
        · rw [List.filter_cons_of_neg (by simp [hfb]), ih,
            List.count_cons_of_ne (Ne.symm hb)]
        · rw [List.filter_cons_of_pos (by simp [hfb]),
            List.count_cons_of_ne (Ne.symm hb),
            List.count_cons_of_ne (Ne.symm hb), ih]

theorem count_filter_of_neg {α : Type} [DecidableEq α] (f : α → Bool)
    (l : List α) (a : α) (h : f a = false) :
    (l.filter f).count a = 0 := by
  rw [List.count_eq_zero]
  intro hmem
  rw [List.mem_filter, h] at hmem
  exact absurd hmem.2 (by simp)

/-- C4: a pending entry whose fire time lies more than 60 seconds in the
past at its first scan is never fired: any scan at that clock or later
leaves the entry unchanged (still `notified = false`) and emits no
notification for it; and recomputation cannot resurrect it, since a run of
`scheduleNotifications` either leaves the whole store unchanged or creates
only entries with strictly future fire times. -/
theorem claim_C4_missed_entry_stays_pending :
    ∀ (st : SW.SchedState) (now now' : Int) (p : SW.Prayer) (e : SW.Entry),
      st.sched p = some e →
      60000 < now - e.time →
      now ≤ now' →
      ((SW.checkAndShowNotifications st now').1.sched p = some e ∧
       (SW.checkAndShowNotifications st now').2.count p = 0) ∧
      (∀ (st₂ : SW.SchedState) (base : Int),
        SW.scheduleNotifications st₂ now' base = st₂ ∨
        ∀ (q : SW.Prayer) (e₂ : SW.Entry),
          (SW.scheduleNotifications st₂ now' base).sched q = some e₂ →
          now' < e₂.time) := by
  intro st now now' p e he hpast hle
  have hwin : ¬ (-60000 ≤ e.time - now') := by omega
  constructor
  · unfold SW.checkAndShowNotifications
    cases hen : (SW.getNotificationSettings st.settings).enabled
    · rw [if_neg (by simp [hen])]
      exact ⟨he, rfl⟩
    · rw [if_pos (by simp [hen])]
      refine ⟨?_, ?_⟩
      · simp only [he]
        rw [if_neg (by simp [hwin])]
      · apply count_filter_of_neg
        unfold SW.firesAt
        rw [he]
        simp [hwin]
  · intro st₂ base
    obtain ⟨set₂, pt₂, sch₂⟩ := st₂
    cases pt₂ with
    | none => left; rfl
    | some pt =>
        cases hen : (SW.getNotificationSettings set₂).enabled
        · left
          unfold SW.scheduleNotifications
          simp [hen]
        · right
          intro q e₂ hq
          unfold SW.scheduleNotifications at hq
          simp only [hen] at hq
          split at hq
          · dsimp only at hq
            split at hq
            · split at hq
              · split at hq
                · rename_i hlt
                  cases hq
                  exact hlt
                · exact absurd hq (by simp)
              · exact absurd hq (by simp)
            · exact absurd hq (by simp)
          · rename_i hfalse
            exact absurd trivial hfalse

/-- Witness for C4 at a concrete input: a pending fajr entry with fire time
0 first scanned at clock 100000 (100 s late), scanned again at 200000. -/
theorem claim_C4_witness :
    (SW.checkAndShowNotifications
        ⟨some ⟨true, ⟨true, true, true, true, true, true⟩⟩, none,
         fun _ => some ⟨.fajr, 0, "12:00 AM", false⟩⟩ 200000).1.sched .fajr =
      some ⟨.fajr, 0, "12:00 AM", false⟩ ∧
    (SW.checkAndShowNotifications
        ⟨some ⟨true, ⟨true, true, true, true, true, true⟩⟩, none,
         fun _ => some ⟨.fajr, 0, "12:00 AM", false⟩⟩ 200000).2.count .fajr = 0 :=
  (claim_C4_missed_entry_stays_pending
      ⟨some ⟨true, ⟨true, true, true, true, true, true⟩⟩, none,
       fun _ => some ⟨.fajr, 0, "12:00 AM", false⟩⟩
      100000 200000 .fajr ⟨.fajr, 0, "12:00 AM", false⟩
      rfl (by decide) (by decide)).1

/-- C3, counterexample to the claim as stated: with the global enabled flag
off, a pending entry scanned exactly at its fire time produces no
notification and is not marked — the claim omits the global gate that
`checkAndShowNotifications` applies before any entry is examined. -/
theorem claim_C3_counterexample :
    (SW.checkAndShowNotifications
        ⟨some ⟨false, ⟨true, true, true, true, true, true⟩⟩, none,
         fun _ => some ⟨.fajr, 0, "12:00 AM", false⟩⟩ 0).2.count .fajr = 0 ∧
    (SW.checkAndShowNotifications
        ⟨some ⟨false, ⟨true, true, true, true, true, true⟩⟩, none,
         fun _ => some ⟨.fajr, 0, "12:00 AM", false⟩⟩ 0).1.sched .fajr =
      some ⟨.fajr, 0, "12:00 AM", false⟩ := by
  exact ⟨rfl, rfl⟩

/-- C3 (amended): provided the global enabled flag of the effective
settings is true, a scan at a clock within 60 seconds of a pending entry's
fire time emits exactly one notification for it and persists
`notified = true`; any later scan of the resulting store, at any clock,
emits no further notification for it and leaves the entry marked. -/
theorem claim_C3_fires_exactly_once :
    ∀ (st : SW.SchedState) (now : Int) (p : SW.Prayer) (e : SW.Entry),
      (SW.getNotificationSettings st.settings).enabled = true →
      st.sched p = some e →
      e.notified = false →
      e.time - now ≤ 60000 →
      -60000 ≤ e.time - now →
      ((SW.checkAndShowNotifications st now).2.count p = 1 ∧
       (SW.checkAndShowNotifications st now).1.sched p =
         some { e with notified := true }) ∧
      ∀ now' : Int,
        (SW.checkAndShowNotifications
            (SW.checkAndShowNotifications st now).1 now').2.count p = 0 ∧
        (SW.checkAndShowNotifications
            (SW.checkAndShowNotifications st now).1 now').1.sched p =
          some { e with notified := true } := by
  intro st now p e hen he hn h1 h2
  have hfire : SW.firesAt st now p = true := by
    unfold SW.firesAt
    rw [he]
    simp [hn, h1, h2]
  have hst1 : (SW.checkAndShowNotifications st now).1.sched p =
      some { e with notified := true } := by
    unfold SW.checkAndShowNotifications
    rw [if_pos (by simp [hen])]
    simp only [he]
    rw [if_pos (by simp [hn, h1, h2])]
  have hset1 : (SW.checkAndShowNotifications st now).1.settings = st.settings := by
    unfold SW.checkAndShowNotifications
    cases hen' : (SW.getNotificationSettings st.settings).enabled
    · rw [if_neg (by simp [hen'])]
    · rw [if_pos (by simp [hen'])]
  refine ⟨⟨?_, hst1⟩, ?_⟩
  · unfold SW.checkAndShowNotifications
    rw [if_pos (by simp [hen])]
    rw [count_filter_of_pos _ _ _ hfire]
    cases p <;> decide
  · intro now'
    have hnot : SW.firesAt (SW.checkAndShowNotifications st now).1 now' p = false := by
      unfold SW.firesAt
      rw [hst1]
      simp
    generalize hg : (SW.checkAndShowNotifications st now).1 = st1 at hst1 hnot ⊢
    constructor
    · unfold SW.checkAndShowNotifications
      cases hen2 : (SW.getNotificationSettings st1.settings).enabled
      · rw [if_neg (by simp [hen2])]
        rfl
      · rw [if_pos (by simp [hen2])]
        exact count_filter_of_neg _ _ _ hnot
    · unfold SW.checkAndShowNotifications
      cases hen2 : (SW.getNotificationSettings st1.settings).enabled
      · rw [if_neg (by simp [hen2])]
        exact hst1
      · rw [if_pos (by simp [hen2])]
        simp only [hst1]
        rw [if_neg (by simp)]

/-- Witness for C3 (amended) at a concrete input: enabled settings, a
pending fajr entry with fire time 30000 scanned at clock 0. -/
theorem claim_C3_witness :
    ((SW.checkAndShowNotifications
        ⟨some ⟨true, ⟨true, true, true, true, true, true⟩⟩, none,
         fun _ => some ⟨.fajr, 30000, "12:00 AM", false⟩⟩ 0).2.count .fajr = 1 ∧
     (SW.checkAndShowNotifications
        ⟨some ⟨true, ⟨true, true, true, true, true, true⟩⟩, none,
         fun _ => some ⟨.fajr, 30000, "12:00 AM", false⟩⟩ 0).1.sched .fajr =
       some ⟨.fajr, 30000, "12:00 AM", true⟩) ∧
    ∀ now' : Int,
      (SW.checkAndShowNotifications
          (SW.checkAndShowNotifications
            ⟨some ⟨true, ⟨true, true, true, true, true, true⟩⟩, none,
             fun _ => some ⟨.fajr, 30000, "12:00 AM", false⟩⟩ 0).1 now').2.count .fajr = 0 ∧
      (SW.checkAndShowNotifications
          (SW.checkAndShowNotifications
            ⟨some ⟨true, ⟨true, true, true, true, true, true⟩⟩, none,
             fun _ => some ⟨.fajr, 30000, "12:00 AM", false⟩⟩ 0).1 now').1.sched .fajr =
        some ⟨.fajr, 30000, "12:00 AM", true⟩ :=
  claim_C3_fires_exactly_once
    ⟨some ⟨true, ⟨true, true, true, true, true, true⟩⟩, none,
     fun _ => some ⟨.fajr, 30000, "12:00 AM", false⟩⟩ 0 .fajr
    ⟨.fajr, 30000, "12:00 AM", false⟩ rfl rfl rfl (by decide) (by decide)

/-- C2, counterexample to the claim as stated: with the stored settings
record having `enabled = false` (but the fajr per-prayer flag on) and a
snapshot whose `subh` time parses to a strictly future instant, one run of
`scheduleNotifications` creates no entry for fajr — the claim omits the
global enabled / snapshot-present guard behind which recomputation runs. -/
theorem claim_C2_counterexample :
    (SW.parseTimeToDate "5:15 AM" 0 = some 18900000 ∧ (0 : Int) < 18900000) ∧
    SW.flagOf (⟨false, ⟨true, false, true, true, true, true⟩⟩ : SW.Settings).prayers .fajr = true ∧
    (SW.scheduleNotifications
        ⟨some ⟨false, ⟨true, false, true, true, true, true⟩⟩,
         some ⟨"5:15 AM", "", "", "", "", "", none⟩,
         fun _ => none⟩ 0 0).sched .fajr = none := by
  exact ⟨⟨by decide, by decide⟩, rfl, rfl⟩

/-- C2 (amended): provided the stored settings record has `enabled = true`
and a prayer-times snapshot exists, one run of `scheduleNotifications`
leaves the collection holding, independently of its previous contents,
exactly one pending entry (`notified = false`, fire time the parsed
today-local instant) for each prayer whose flag is on, whose provider time
string is non-empty and parseable, and whose parsed instant is strictly
later than now — and no other entries; every created entry's fire time is
strictly in the future. -/
theorem claim_C2_recompute_exact :
    ∀ (s : SW.Settings) (pt : SW.PrayerTimesRec)
      (sched₀ : SW.Prayer → Option SW.Entry) (now base : Int),
      s.enabled = true →
      (∀ (p : SW.Prayer) (e : SW.Entry),
        (SW.scheduleNotifications ⟨some s, some pt, sched₀⟩ now base).sched p = some e ↔
          (SW.flagOf s.prayers p = true ∧ SW.timeOf pt p ≠ "" ∧
           ∃ t : Int, SW.parseTimeToDate (SW.timeOf pt p) base = some t ∧
             now < t ∧ e = ⟨p, t, SW.timeOf pt p, false⟩)) ∧
      (∀ (p : SW.Prayer) (e : SW.Entry),
        (SW.scheduleNotifications ⟨some s, some pt, sched₀⟩ now base).sched p = some e →
          e.notified = false ∧ now < e.time) := by
  intro s pt sched₀ now base hen
  have hiff : ∀ (p : SW.Prayer) (e : SW.Entry),
      (SW.scheduleNotifications ⟨some s, some pt, sched₀⟩ now base).sched p = some e ↔
        (SW.flagOf s.prayers p = true ∧ SW.timeOf pt p ≠ "" ∧
         ∃ t : Int, SW.parseTimeToDate (SW.timeOf pt p) base = some t ∧
           now < t ∧ e = ⟨p, t, SW.timeOf pt p, false⟩) := by
    intro p e
    unfold SW.scheduleNotifications
    dsimp only [SW.getNotificationSettings, Option.getD]
    rw [if_pos hen]
    dsimp only
    by_cases hf : SW.flagOf s.prayers p = true
    · by_cases hne : SW.timeOf pt p = ""
      · rw [if_neg (by simp [hne])]
        simp [hne]
      · rw [if_pos (by simp [hf, hne])]
        cases hp : SW.parseTimeToDate (SW.timeOf pt p) base with
        | none => simp [hf, hne, hp]
        | some t =>
            dsimp only
            by_cases hlt : now < t
            · rw [if_pos hlt]
              simp only [hf, hne, hp, hlt, Option.some.injEq, true_and, ne_eq,
                not_false_eq_true]
              constructor
              · rintro rfl
                exact ⟨t, rfl, hlt, rfl⟩
              · rintro ⟨t', ht', _, rfl⟩
                cases ht'
                rfl
            · rw [if_neg hlt]
              simp only [hf, hne, hp, Option.some.injEq, true_and, ne_eq,
                not_false_eq_true]
              constructor
              · intro h
                exact absurd h (by simp)
              · rintro ⟨t', ht', hlt', rfl⟩
                cases ht'
                exact absurd hlt' hlt
    · rw [if_neg (by simp [hf])]
      simp [hf]
  refine ⟨hiff, ?_⟩
  intro p e h
  rcases (hiff p e).1 h with ⟨_, _, t, _, hlt, rfl⟩
  exact ⟨rfl, hlt⟩

/-- Witness for C2 (amended) at a concrete input: enabled settings with the
default flags, a snapshot with `subh = "5:15 AM"`, clock and midnight 0 —
the run schedules exactly the fajr entry at instant 18900000. -/
theorem claim_C2_witness :
    (SW.scheduleNotifications
        ⟨some ⟨true, ⟨true, false, true, true, true, true⟩⟩,
         some ⟨"5:15 AM", "", "", "", "", "", none⟩,
         fun _ => none⟩ 0 0).sched .fajr =
      some ⟨.fajr, 18900000, "5:15 AM", false⟩ :=
  ((claim_C2_recompute_exact ⟨true, ⟨true, false, true, true, true, true⟩⟩
      ⟨"5:15 AM", "", "", "", "", "", none⟩ (fun _ => none) 0 0 rfl).1 .fajr
      ⟨.fajr, 18900000, "5:15 AM", false⟩).2
    ⟨rfl, by decide, 18900000, by decide, by decide, rfl⟩

theorem scheduleNotifications_settings (st : SW.SchedState) (now base : Int) :
    (SW.scheduleNotifications st now base).settings = st.settings := by
  obtain ⟨se, pt, sc⟩ := st
  cases pt with
  | none => rfl
  | some pt =>
      unfold SW.scheduleNotifications
      dsimp only
      split <;> rfl

/-- C8, counterexample to the claim as stated: a first read of the settings
record on a store holding none yields the default settings object but
performs no write — afterwards the store still holds no record, whereas the
claim says the record is created with defaults. -/
theorem claim_C8_counterexample :
    (SW.getNotificationSettingsStore none).1 = SW.defaultSettings ∧
    (SW.getNotificationSettingsStore none).2 = none ∧
    (none : Option SW.Settings) ≠ some SW.defaultSettings := by
  exact ⟨rfl, rfl, by decide⟩

/-- C8 (amended): a read of an absent settings record returns the built-in
defaults (globally disabled; per-prayer flags on except sunrise) without
writing them to the store, a read of a present record returns it unchanged,
and a settings update via the control channel replaces the record wholesale
with the supplied payload and then runs recomputation. -/
theorem claim_C8_settings_defaults_and_update :
    (∀ p : SW.Prayer, SW.flagOf SW.defaultSettings.prayers p = decide (p ≠ .sunrise)) ∧
    SW.defaultSettings.enabled = false ∧
    (SW.getNotificationSettingsStore none).1 = SW.defaultSettings ∧
    (SW.getNotificationSettingsStore none).2 = none ∧
    (∀ s : SW.Settings, SW.getNotificationSettingsStore (some s) = (s, some s)) ∧
    (∀ (payload : SW.Settings) (st : SW.SchedState) (now base : Int),
      SW.updateNotificationSettings payload st now base =
        SW.scheduleNotifications { st with settings := some payload } now base ∧
      (SW.updateNotificationSettings payload st now base).settings = some payload) := by
  refine ⟨?_, rfl, rfl, rfl, fun s => rfl, ?_⟩
  · intro p
    cases p <;> rfl
  · intro payload st now base
    refine ⟨rfl, ?_⟩
    unfold SW.updateNotificationSettings
    rw [scheduleNotifications_settings]

/-! ### Lemmas about the time-string matcher -/

theorem dropWhile_append_all {p : Char → Bool} (ws l : List Char)
    (h : ∀ c ∈ ws, p c = true) :
    (ws ++ l).dropWhile p = l.dropWhile p := by
  induction ws with
  | nil => rfl
  | cons a t ih =>
      rw [List.cons_append, List.dropWhile_cons]
      rw [h a (List.mem_cons_self a t)]
      simp only [if_true]
      exact ih (fun c hc => h c (List.mem_cons_of_mem a hc))

theorem readPeriod_isSome (ws : List Char) (p1 p2 : Char) (post : List Char)
    (hws : ∀ c ∈ ws, SW.isSpaceChar c = true)
    (hp1 : p1 = 'A' ∨ p1 = 'a' ∨ p1 = 'P' ∨ p1 = 'p')
    (hp2 : p2 = 'M' ∨ p2 = 'm') :
    (SW.readPeriod (ws ++ p1 :: p2 :: post)).isSome = true := by
  have hsp : SW.isSpaceChar p1 = false := by
    rcases hp1 with rfl | rfl | rfl | rfl <;> rfl
  unfold SW.readPeriod
  rw [dropWhile_append_all _ _ hws,
    List.dropWhile_cons_of_neg (by simp [hsp])]
  rcases hp1 with rfl | rfl | rfl | rfl <;> rcases hp2 with rfl | rfl <;> rfl

theorem readPeriod_inv (cs : List Char) (pm : Bool)
    (h : SW.readPeriod cs = some pm) :
    ∃ ws p1 p2 post, cs = ws ++ p1 :: p2 :: post ∧
      (∀ c ∈ ws, SW.isSpaceChar c = true) ∧
      (p1 = 'A' ∨ p1 = 'a' ∨ p1 = 'P' ∨ p1 = 'p') ∧ (p2 = 'M' ∨ p2 = 'm') := by
  unfold SW.readPeriod at h
  cases hd : cs.dropWhile SW.isSpaceChar with
  | nil => rw [hd] at h; exact absurd h (by simp)
  | cons a t =>
      cases t with
      | nil => rw [hd] at h; exact absurd h (by simp)
      | cons m t' =>
          rw [hd] at h
          dsimp only at h
          refine ⟨cs.takeWhile SW.isSpaceChar, a, m, t', ?_, ?_, ?_, ?_⟩
          · rw [← hd, List.takeWhile_append_dropWhile]
          · intro c hc
            exact List.mem_takeWhile_imp hc
          · split_ifs at h with h1 h2
            · simp only [Bool.and_eq_true, decide_eq_true_eq,
                Bool.or_eq_true] at h1
              rcases h1.1 with h | h
              · exact Or.inl h
              · exact Or.inr (Or.inl h)
            · simp only [Bool.and_eq_true, decide_eq_true_eq,
                Bool.or_eq_true] at h2
              rcases h2.1 with h | h
              · exact Or.inr (Or.inr (Or.inl h))
              · exact Or.inr (Or.inr (Or.inr h))
          · split_ifs at h with h1 h2
            · simp only [Bool.and_eq_true, decide_eq_true_eq,
                Bool.or_eq_true] at h1
              exact h1.2
            · simp only [Bool.and_eq_true, decide_eq_true_eq,
                Bool.or_eq_true] at h2
              exact h2.2

theorem matchTwo_inv (cs : List Char) (x : Nat × Nat × Bool)
    (h : SW.matchTwo cs = some x) : TimeMatchAt cs := by
  unfold SW.matchTwo at h
  cases cs with
  | nil => exact absurd h (by simp)
  | cons c1 cs1 =>
  cases cs1 with
  | nil => exact absurd h (by simp)
  | cons c2 cs2 =>
  cases cs2 with
  | nil => exact absurd h (by simp)
  | cons c3 cs3 =>
  cases cs3 with
  | nil => exact absurd h (by simp)
  | cons m1 cs4 =>
  cases cs4 with
  | nil => exact absurd h (by simp)
  | cons m2 rest =>
  dsimp only at h
  split_ifs at h with hc
  simp only [Bool.and_eq_true, beq_iff_eq] at hc
  obtain ⟨⟨⟨⟨h1, h2⟩, h3⟩, h4⟩, h5⟩ := hc
  rcases Option.map_eq_some'.1 h with ⟨pm, hrp, _⟩
  rcases readPeriod_inv rest pm hrp with ⟨ws, p1, p2, post, rfl, hws, hp1, hp2⟩
  subst h3
  exact ⟨[c1, c2], m1, m2, ws, p1, p2, post, rfl, Or.inr rfl,
    by simp [h1, h2], h4, h5, hws, hp1, hp2⟩

theorem matchOne_inv (cs : List Char) (x : Nat × Nat × Bool)
    (h : SW.matchOne cs = some x) : TimeMatchAt cs := by
  unfold SW.matchOne at h
  cases cs with
  | nil => exact absurd h (by simp)
  | cons c1 cs1 =>
  cases cs1 with
  | nil => exact absurd h (by simp)
  | cons c2 cs2 =>
  cases cs2 with
  | nil => exact absurd h (by simp)
  | cons m1 cs3 =>
  cases cs3 with
  | nil => exact absurd h (by simp)
  | cons m2 rest =>
  dsimp only at h
  split_ifs at h with hc
  simp only [Bool.and_eq_true, beq_iff_eq] at hc
  obtain ⟨⟨⟨h1, h2⟩, h3⟩, h4⟩ := hc
  rcases Option.map_eq_some'.1 h with ⟨pm, hrp, _⟩
  rcases readPeriod_inv rest pm hrp with ⟨ws, p1, p2, post, rfl, hws, hp1, hp2⟩
  subst h2
  exact ⟨[c1], m1, m2, ws, p1, p2, post, rfl, Or.inl rfl,
    by simp [h1], h3, h4, hws, hp1, hp2⟩

theorem timeMatchAt_of_matchAt (cs : List Char) (x : Nat × Nat × Bool)
    (h : SW.matchAt cs = some x) : TimeMatchAt cs := by
  unfold SW.matchAt at h
  cases hmt : SW.matchTwo cs with
  | some y => exact matchTwo_inv cs y hmt
  | none =>
      rw [hmt] at h
      exact matchOne_inv cs x h

theorem matchAt_isSome (cs : List Char) (hm : TimeMatchAt cs) :
    (SW.matchAt cs).isSome = true := by
  rcases hm with ⟨hs, m1, m2, ws, p1, p2, post, rfl, hlen, hdig, hm1, hm2, hws, hp1, hp2⟩
  unfold SW.matchAt
  rcases hlen with h1 | h2
  · obtain ⟨c1, rfl⟩ := List.length_eq_one.1 h1
    simp only [List.cons_append, List.nil_append]
    cases hmt : SW.matchTwo (c1 :: ':' :: m1 :: m2 :: (ws ++ p1 :: p2 :: post)) with
    | some y => simp [hmt]
    | none =>
        show (SW.matchOne (c1 :: ':' :: m1 :: m2 :: (ws ++ p1 :: p2 :: post))).isSome = true
        unfold SW.matchOne
        dsimp only
        rw [if_pos (by simp [hdig c1 (by simp), hm1, hm2])]
        rcases Option.isSome_iff_exists.1
          (readPeriod_isSome ws p1 p2 post hws hp1 hp2) with ⟨pm, hpm⟩
        rw [hpm]
        rfl
  · obtain ⟨c1, c2, rfl⟩ := List.length_eq_two.1 h2
    simp only [List.cons_append, List.nil_append]
    have hsome : (SW.matchTwo
        (c1 :: c2 :: ':' :: m1 :: m2 :: (ws ++ p1 :: p2 :: post))).isSome = true := by
      unfold SW.matchTwo
      dsimp only
      rw [if_pos (by simp [hdig c1 (by simp), hdig c2 (by simp), hm1, hm2])]
      rcases Option.isSome_iff_exists.1
        (readPeriod_isSome ws p1 p2 post hws hp1 hp2) with ⟨pm, hpm⟩
      rw [hpm]
      rfl
    rcases Option.isSome_iff_exists.1 hsome with ⟨y, hy⟩
    simp [hy]

theorem timeMatch_of_findTimeMatch (cs : List Char) (x : Nat × Nat × Bool)
    (h : SW.findTimeMatch cs = some x) :
    ∃ pre suf, cs = pre ++ suf ∧ TimeMatchAt suf := by
  induction cs with
  | nil => exact absurd h (by simp [SW.findTimeMatch])
  | cons c rest ih =>
      unfold SW.findTimeMatch at h
      cases hma : SW.matchAt (c :: rest) with
      | some y =>
          exact ⟨[], c :: rest, rfl, timeMatchAt_of_matchAt _ y hma⟩
      | none =>
          rw [hma] at h
          rcases ih h with ⟨pre, suf, heq, hm⟩
          exact ⟨c :: pre, suf, by rw [heq, List.cons_append], hm⟩

theorem findTimeMatch_isSome_of_timeMatch (cs : List Char)
    (hm : ∃ pre suf, cs = pre ++ suf ∧ TimeMatchAt suf) :
    (SW.findTimeMatch cs).isSome = true := by
  rcases hm with ⟨pre, suf, rfl, hm⟩
  induction pre with
  | nil =>
      simp only [List.nil_append]
      cases suf with
      | nil =>
          exfalso
          rcases hm with ⟨hs, m1, m2, ws, p1, p2, post, heq, hlen, _⟩
          rcases hlen with h1 | h2
          · obtain ⟨a, rfl⟩ := List.length_eq_one.1 h1
            simp at heq
          · obtain ⟨a, b, rfl⟩ := List.length_eq_two.1 h2
            simp at heq
      | cons c rest =>
          have hsome := matchAt_isSome _ hm
          unfold SW.findTimeMatch
          cases hma : SW.matchAt (c :: rest) with
          | some y => simp [hma]
          | none => rw [hma] at hsome; exact absurd hsome (by simp)
  | cons c pre ih =>
      rw [List.cons_append]
      unfold SW.findTimeMatch
      cases hma : SW.matchAt (c :: (pre ++ suf)) with
      | some y => simp [hma]
      | none => exact ih

theorem to24Hour_eq_spec (pm : Bool) (h : Nat) :
    SW.to24Hour pm h = specTo24Hour pm h := by
  unfold SW.to24Hour specTo24Hour
  cases pm <;> by_cases h12 : h = 12 <;> simp [h12]

/-- C7: the time parser is total over strings — it returns `null` exactly
for the inputs that contain no `H:MM`-followed-by-`AM`/`PM` pattern (the
empty string included), and on a matching input it returns today's
local-date instant at the matched time converted by the 12-to-24-hour rule
(PM adds 12 except for 12 PM; 12 AM maps to hour 0). -/
theorem claim_C7_parser_total :
    ∀ (s : String) (base : Int),
      (SW.parseTimeToDate s base = none ↔ ¬ ContainsTimePattern s) ∧
      (∀ (h m : Nat) (pm : Bool), SW.findTimeMatch s.data = some (h, m, pm) →
        SW.parseTimeToDate s base =
          some (base + ((specTo24Hour pm h * 60 + m : Nat) : Int) * 60000)) := by
  intro s base
  constructor
  · constructor
    · intro hnone hc
      have hsome := findTimeMatch_isSome_of_timeMatch s.data hc
      unfold SW.parseTimeToDate at hnone
      by_cases hs : s = ""
      · rw [hs] at hsome
        exact absurd hsome (by simp [SW.findTimeMatch])
      · rw [if_neg hs] at hnone
        cases hf : SW.findTimeMatch s.data with
        | none => rw [hf] at hsome; exact absurd hsome (by simp)
        | some x =>
            rw [hf] at hnone
            rcases x with ⟨h, m, pm⟩
            exact absurd hnone (by simp)
    · intro hnc
      unfold SW.parseTimeToDate
      by_cases hs : s = ""
      · rw [if_pos hs]
      · rw [if_neg hs]
        cases hf : SW.findTimeMatch s.data with
        | none => rfl
        | some x =>
            exact absurd (timeMatch_of_findTimeMatch s.data x hf) hnc
  · intro h m pm hf
    unfold SW.parseTimeToDate
    have hs : ¬ s = "" := by
      intro hs
      rw [hs] at hf
      exact absurd hf (by simp [SW.findTimeMatch])
    rw [if_neg hs, hf]
    dsimp only
    rw [to24Hour_eq_spec]

/-! ### Lemmas for the generation-renaming equivalence -/

theorem renameCache_oldCore : renameCache SWOld.CACHE_NAME = SW.CACHE_NAME := by
  decide

theorem renameCache_oldApi : renameCache SWOld.API_CACHE = SW.API_CACHE := by
  decide

theorem renameCache_oldOffline : renameCache SWOld.OFFLINE_CACHE = SW.OFFLINE_CACHE := by
  decide

theorem cachesMatch_renameState (st : CacheState) (url : String) :
    cachesMatch (renameState st) url = cachesMatch st url := by
  induction st with
  | nil => rfl
  | cons e rest ih =>
      rcases e with ⟨n, p⟩
      simp only [renameState, List.map_cons]
      unfold cachesMatch
      cases hf : (p.find? (fun e => e.1 == url)).map Prod.snd with
      | some r => rfl
      | none => exact ih

theorem renameCache_ne (en n : String)
    (he1 : en ≠ SW.CACHE_NAME) (he2 : en ≠ SW.API_CACHE) (he3 : en ≠ SW.OFFLINE_CACHE)
    (hn : n = SWOld.CACHE_NAME ∨ n = SWOld.API_CACHE ∨ n = SWOld.OFFLINE_CACHE)
    (hne : en ≠ n) :
    renameCache en ≠ renameCache n := by
  unfold renameCache
  rcases hn with rfl | rfl | rfl <;>
    by_cases e1 : en = SWOld.CACHE_NAME <;>
    by_cases e2 : en = SWOld.API_CACHE <;>
    by_cases e3 : en = SWOld.OFFLINE_CACHE <;>
    simp_all [SW.CACHE_NAME, SW.API_CACHE, SW.OFFLINE_CACHE,
      SWOld.CACHE_NAME, SWOld.API_CACHE, SWOld.OFFLINE_CACHE]

theorem cachePut_renameState (st : CacheState) (url : String) (r : HttpResponse)
    (n : String)
    (hn : n = SWOld.CACHE_NAME ∨ n = SWOld.API_CACHE ∨ n = SWOld.OFFLINE_CACHE)
    (h : ∀ e ∈ st, e.1 ≠ SW.CACHE_NAME ∧ e.1 ≠ SW.API_CACHE ∧ e.1 ≠ SW.OFFLINE_CACHE) :
    cachePut (renameState st) (renameCache n) url r =
      renameState (cachePut st n url r) := by
  induction st with
  | nil => simp [renameState, cachePut]
  | cons e rest ih =>
      rcases e with ⟨en, p⟩
      have he := h (en, p) (List.mem_cons_self _ _)
      by_cases heq : en = n
      · subst heq
        simp only [renameState, List.map_cons]
        unfold cachePut
        rw [if_pos rfl, if_pos rfl]
        simp [renameState]
      · have hne := renameCache_ne en n he.1 he.2.1 he.2.2 hn heq
        simp only [renameState, List.map_cons]
        unfold cachePut
        rw [if_neg hne, if_neg heq]
        have hrec := ih (fun e he' => h e (List.mem_cons_of_mem _ he'))
        simp only [renameState] at hrec
        simp only [List.map_cons]
        rw [hrec]

theorem handleApiRequest_equiv (fr : FetchResult) (nowIso : String)
    (st : CacheState) (url : String)
    (h : ∀ e ∈ st, e.1 ≠ SW.CACHE_NAME ∧ e.1 ≠ SW.API_CACHE ∧ e.1 ≠ SW.OFFLINE_CACHE) :
    SW.handleApiRequest fr nowIso (renameState st) url =
      ((SWOld.handleApiRequest fr nowIso st url).1,
       renameState (SWOld.handleApiRequest fr nowIso st url).2) := by
  unfold SW.handleApiRequest SWOld.handleApiRequest
  cases fr with
  | failure =>
      rw [cachesMatch_renameState]
      cases hc : cachesMatch st url with
      | some c => rfl
      | none => rfl
  | success r =>
      dsimp only
      by_cases hok : respOk r = true
      · have hput := cachePut_renameState st url
          { r with headers := setHeader r.headers "sw-cached-at" nowIso }
          SWOld.API_CACHE (Or.inr (Or.inl rfl)) h
        rw [renameCache_oldApi] at hput
        simp only [hok, eq_self_iff_true, if_true]
        rw [hput]
      · have hok' : respOk r = false := by simpa using hok
        simp only [hok', Bool.false_eq_true, if_false]
        rw [cachesMatch_renameState]
        cases hc : cachesMatch st url with
        | some c => rfl
        | none => rfl

theorem handleCoreAssetRequest_equiv (fr : FetchResult)
    (st : CacheState) (url : String)
    (h : ∀ e ∈ st, e.1 ≠ SW.CACHE_NAME ∧ e.1 ≠ SW.API_CACHE ∧ e.1 ≠ SW.OFFLINE_CACHE) :
    SW.handleCoreAssetRequest fr (renameState st) url =
      ((SWOld.handleCoreAssetRequest fr st url).1,
       renameState (SWOld.handleCoreAssetRequest fr st url).2) := by
  unfold SW.handleCoreAssetRequest SWOld.handleCoreAssetRequest
  rw [cachesMatch_renameState]
  cases hc : cachesMatch st url with
  | some c => rfl
  | none =>
      cases fr with
      | failure => rfl
      | success r =>
          dsimp only
          by_cases hok : respOk r = true
          · have hput := cachePut_renameState st url r
              SWOld.CACHE_NAME (Or.inl rfl) h
            rw [renameCache_oldCore] at hput
            simp only [hok, eq_self_iff_true, if_true]
            rw [hput]
          · have hok' : respOk r = false := by simpa using hok
            simp only [hok', Bool.false_eq_true, if_false]
            rfl

theorem handleNetworkRequest_equiv (fr : FetchResult)
    (st : CacheState) (url : String)
    (h : ∀ e ∈ st, e.1 ≠ SW.CACHE_NAME ∧ e.1 ≠ SW.API_CACHE ∧ e.1 ≠ SW.OFFLINE_CACHE) :
    SW.handleNetworkRequest fr (renameState st) url =
      ((SWOld.handleNetworkRequest fr st url).1,
       renameState (SWOld.handleNetworkRequest fr st url).2) := by
  unfold SW.handleNetworkRequest SWOld.handleNetworkRequest
  cases fr with
  | failure =>
      rw [cachesMatch_renameState]
      cases hc : cachesMatch st url with
      | some c => rfl
      | none => rfl
  | success r =>
      dsimp only
      by_cases hok : respOk r = true
      · have hput := cachePut_renameState st url r
          SWOld.OFFLINE_CACHE (Or.inr (Or.inr rfl)) h
        rw [renameCache_oldOffline] at hput
        simp only [hok, eq_self_iff_true, if_true]
        rw [hput]
      · have hok' : respOk r = false := by simpa using hok
        simp only [hok', Bool.false_eq_true, if_false]
        rw [cachesMatch_renameState]
        cases hc : cachesMatch st url with
        | some c => rfl
        | none => rfl

theorem handleApiRequest_fst (fr : FetchResult) (nowIso : String)
    (st : CacheState) (url : String) :
    (SW.handleApiRequest fr nowIso (renameState st) url).1 =
      (SWOld.handleApiRequest fr nowIso st url).1 := by
  unfold SW.handleApiRequest SWOld.handleApiRequest
  cases fr with
  | failure =>
      rw [cachesMatch_renameState]
      cases hc : cachesMatch st url with
      | some c => rfl
      | none => rfl
  | success r =>
      dsimp only
      by_cases hok : respOk r = true
      · simp only [hok, eq_self_iff_true, if_true]
      · have hok' : respOk r = false := by simpa using hok
        simp only [hok', Bool.false_eq_true, if_false]
        rw [cachesMatch_renameState]
        cases hc : cachesMatch st url with
        | some c => rfl
        | none => rfl

theorem handleCoreAssetRequest_fst (fr : FetchResult)
    (st : CacheState) (url : String) :
    (SW.handleCoreAssetRequest fr (renameState st) url).1 =
      (SWOld.handleCoreAssetRequest fr st url).1 := by
  unfold SW.handleCoreAssetRequest SWOld.handleCoreAssetRequest
  rw [cachesMatch_renameState]
  cases hc : cachesMatch st url with
  | some c => rfl
  | none =>
      cases fr with
      | failure => rfl
      | success r =>
          dsimp only
          by_cases hok : respOk r = true
          · simp only [hok, eq_self_iff_true, if_true]
          · have hok' : respOk r = false := by simpa using hok
            simp only [hok', Bool.false_eq_true, if_false]
            rfl

theorem handleNetworkRequest_fst (fr : FetchResult)
    (st : CacheState) (url : String) :
    (SW.handleNetworkRequest fr (renameState st) url).1 =
      (SWOld.handleNetworkRequest fr st url).1 := by
  unfold SW.handleNetworkRequest SWOld.handleNetworkRequest
  cases fr with
  | failure =>
      rw [cachesMatch_renameState]
      cases hc : cachesMatch st url with
      | some c => rfl
      | none => rfl
  | success r =>
      dsimp only
      by_cases hok : respOk r = true
      · simp only [hok, eq_self_iff_true, if_true]
      · have hok' : respOk r = false := by simpa using hok
        simp only [hok', Bool.false_eq_true, if_false]
        rw [cachesMatch_renameState]
        cases hc : cachesMatch st url with
        | some c => rfl
        | none => rfl

theorem classifyRequest_eq (req : Request) :
    SWOld.classifyRequest req = SW.classifyRequest req := rfl

/-- C10: the two service-worker versions route identically up to renaming
the cache generation — they classify every request the same way, every GET
produces the same response, and the resulting cache storages agree after
renaming the v2.0.0 partition names to their v2.1.0 counterparts (for a
storage that does not already contain v2.1.0-named partitions). -/
theorem claim_C10_versions_equivalent :
    ∀ (req : Request) (fr : FetchResult) (nowIso : String) (st : CacheState),
      SWOld.classifyRequest req = SW.classifyRequest req ∧
      (SW.routeFetch req fr nowIso (renameState st)).map Prod.fst =
        (SWOld.routeFetch req fr nowIso st).map Prod.fst ∧
      ((∀ e ∈ st, e.1 ≠ SW.CACHE_NAME ∧ e.1 ≠ SW.API_CACHE ∧ e.1 ≠ SW.OFFLINE_CACHE) →
        SW.routeFetch req fr nowIso (renameState st) =
          (SWOld.routeFetch req fr nowIso st).map
            (fun rc => (rc.1, renameState rc.2))) := by
  intro req fr nowIso st
  refine ⟨classifyRequest_eq req, ?_, ?_⟩
  · unfold SW.routeFetch SWOld.routeFetch
    by_cases hm : req.method ≠ "GET"
    · rw [if_pos hm, if_pos hm]
    · rw [if_neg hm, if_neg hm, classifyRequest_eq req]
      cases SW.classifyRequest req with
      | api =>
          dsimp only
          simp only [Option.map_some']
          rw [handleApiRequest_fst]
      | coreAsset =>
          dsimp only
          simp only [Option.map_some']
          rw [handleCoreAssetRequest_fst]
      | default =>
          dsimp only
          simp only [Option.map_some']
          rw [handleNetworkRequest_fst]
  · intro h
    unfold SW.routeFetch SWOld.routeFetch
    by_cases hm : req.method ≠ "GET"
    · rw [if_pos hm, if_pos hm]
      rfl
    · rw [if_neg hm, if_neg hm, classifyRequest_eq req]
      cases SW.classifyRequest req with
      | api =>
          dsimp only
          simp only [Option.map_some']
          rw [handleApiRequest_equiv fr nowIso st req.href h]
      | coreAsset =>
          dsimp only
          simp only [Option.map_some']
          rw [handleCoreAssetRequest_equiv fr st req.href h]
      | default =>
          dsimp only
          simp only [Option.map_some']
          rw [handleNetworkRequest_equiv fr st req.href h]
